import Mathlib

/-!
Shallow embedding of `rsf.py` (rate-and-state friction modeling, repository
`cugzhaobin/rsfmodel`) and verification of the specification's claims about it.

Python floats are modeled as real numbers; Python runtime exceptions are
modeled by an explicit error type, and fallible code returns `Except`.
Mutation of objects is modeled by explicit state passing: a method that
mutates its receiver or an argument returns the updated structure.
-/

namespace Rsf

/-- Runtime errors of the Python source that the embedding distinguishes.
`nameError` models a reference to an undefined global name, `typeError` an
arithmetic operation on `None`, `indexError` an out-of-range (or empty-mask)
index, `runtimeError` the `RuntimeError` raised in `RateState.solve`.
`uninitializedStateError` does not occur in the source; it is the error class
named by the specification, included so that statements can compare the
source's actual errors against it. -/
inductive PyError
  | nameError
  | typeError
  | indexError
  | runtimeError
  | uninitializedStateError
  deriving DecidableEq

/-- The three state-evolution law variants of the source: `DieterichState`,
`RuinaState`, `PrzState` (classes in `rsf.py` lines 39-69), embedded as a
closed tag since the variant set is fixed. -/
inductive StateKind
  | dieterich
  | ruina
  | prz
  deriving DecidableEq

noncomputable section

/-- `StateRelation` of `rsf.py` lines 29-36: fields `b`, `Dc`, `state`, with
`state` initialized to `None` (modeled by `Option`) until steady-state
initialization.  The `kind` tag selects which of the three subclasses the
object is.  `b` and `Dc` are modeled at their configured (float) values, as
driver scripts assign them before any method runs. -/
structure StateRelation where
  kind : StateKind
  b : ℝ
  Dc : ℝ
  state : Option ℝ

/-- `StateRelation.velocity_component` (line 35-36):
`self.b * log(system.vref * self.state / self.Dc)`.
If `state` is `None`, the multiplication `vref * None` raises a `TypeError`. -/
def velocity_component (vref : ℝ) (sr : StateRelation) : Except PyError ℝ :=
  match sr.state with
  | none => .error .typeError
  | some θ => .ok (sr.b * Real.log (vref * θ / sr.Dc))

/-- The steady-state value written into `state` by each variant's
`_set_steady_state` (lines 40-41, 51-52, 62-63): `Dc/vref` for Dieterich and
Ruina, `2*Dc/vref` for PRZ. -/
def steady_state_value (vref : ℝ) (sr : StateRelation) : ℝ :=
  match sr.kind with
  | .dieterich => sr.Dc / vref
  | .ruina => sr.Dc / vref
  | .prz => 2 * sr.Dc / vref

/-- `_set_steady_state(system)` of each variant: assigns the steady-state
value into `self.state`. -/
def set_steady_state (vref : ℝ) (sr : StateRelation) : StateRelation :=
  { sr with state := some (steady_state_value vref sr) }

/-- `evolve_state(system)` of each variant (lines 43-47, 54-58, 65-69).
When `self.state is None` every variant executes
`self.state = _steady_state(self, system)`, but no global `_steady_state`
exists in the module (the methods are named `_set_steady_state`), so Python
raises a `NameError` before anything is assigned.  Otherwise the variant's
`dtheta/dt` formula is returned; `v` is the system's current velocity. -/
def evolve_state (v : ℝ) (sr : StateRelation) : Except PyError ℝ :=
  match sr.state with
  | none => .error .nameError
  | some θ =>
    match sr.kind with
    | .dieterich => .ok (1 - v * θ / sr.Dc)
    | .ruina => .ok (-1 * (v * θ / sr.Dc) * Real.log (v * θ / sr.Dc))
    | .prz => .ok (1 - (v * θ / (2 * sr.Dc)) ^ 2)

/-- `ExternalSystem` of `rsf.py` lines 72-89.  `__init__` creates
`mu0, a, k, v, vref` (configured by the driver before solving; modeled at
their configured float values) and `state_relations`.  `mu` is assigned by
`RateState._integrationStep` (line 106).  `model_time` and
`loadpoint_velocity` are not created by `__init__`: driver scripts assign
them onto the system object, and `RateState._integrationStep` (line 114) and
`RateState.solve` (lines 148, 151, 161-162) read them from the system, so
they are fields of this structure. -/
structure ExternalSystem where
  mu0 : ℝ
  a : ℝ
  k : ℝ
  v : ℝ
  vref : ℝ
  mu : ℝ
  state_relations : List StateRelation
  model_time : List ℝ
  loadpoint_velocity : List ℝ

/-- The accumulation loop of `ExternalSystem.velocity_evolution`
(lines 83-85): `v_contribution = 0`, then `+=` each state's
`velocity_component`, propagating the first error raised. -/
def velocity_contribution (vref : ℝ) (srs : List StateRelation) : Except PyError ℝ :=
  srs.foldlM (fun acc sr => (velocity_component vref sr).map (fun c => acc + c)) 0

/-- `ExternalSystem.velocity_evolution` (lines 82-86): accumulates the state
contributions and overwrites `self.v` with
`vref * exp((mu - mu0 - v_contribution) / a)`. -/
def velocity_evolution (sys : ExternalSystem) : Except PyError ExternalSystem :=
  (velocity_contribution sys.vref sys.state_relations).map
    (fun c => { sys with v := sys.vref * Real.exp ((sys.mu - sys.mu0 - c) / sys.a) })

/-- `ExternalSystem.friction_evolution` (lines 88-89):
`k * (loadpoint_vel - v)`. -/
def friction_evolution (sys : ExternalSystem) (loadpoint_vel : ℝ) : ℝ :=
  sys.k * (loadpoint_vel - sys.v)

/-- `Results` of the source: the `namedtuple("results", ...)` fields created
in `RateState.__init__` (line 99) and assigned by `solve` (lines 149-163). -/
structure Results where
  time : List ℝ
  displacement : List ℝ
  slider_velocity : List ℝ
  friction : List ℝ
  states : List (List ℝ)

/-- The empty results value: in the source, `RateState.__init__` creates a
bare `namedtuple` class carrying no data yet. -/
def emptyResults : Results :=
  { time := [], displacement := [], slider_velocity := [], friction := [], states := [] }

/-- `RateState` of `rsf.py` lines 92-99: `__init__` creates `model_time`,
`loadpoint_velocity` and the single `results` object.  In the source the
`results` namedtuple object is created once here and every `solve` call
assigns its fields in place and returns that same object, so the value a
caller receives from `solve` is an alias of this `results` field; the
embedding's `solve` therefore returns the updated `RateState` together with
its `results` field. -/
structure RateState where
  model_time : List ℝ
  loadpoint_velocity : List ℝ
  results : Results

/-- `RateState.readyCheck` (lines 126-127): the source body is `return True`,
unconditionally. -/
def readyCheck (_rs : RateState) : Bool :=
  true

/-- The zero-order-hold lookup of `RateState._integrationStep` (line 114):
`system.loadpoint_velocity[system.model_time <= t][-1]`.  The boolean mask
keeps exactly the velocity entries whose grid time is `≤ t` (numpy requires
the two arrays to have equal length, which the theorems hypothesize), and
`[-1]` takes the last kept entry; indexing `[-1]` into an empty selection
raises an `IndexError`, modeled by `none`. -/
def mask_last (time vel : List ℝ) (t : ℝ) : Option ℝ :=
  (((time.zip vel).filter (fun p => decide (p.1 ≤ t))).getLast?).map Prod.snd

/-- The per-law loop of `RateState._integrationStep` (lines 120-122):
computes `evolve_state` for each state relation in list order, collecting
the rates (and propagating the first error raised). -/
def evolve_all (v : ℝ) : List StateRelation → Except PyError (List ℝ)
  | [] => .ok []
  | sr :: srs =>
    match evolve_state v sr with
    | .error e => .error e
    | .ok d => (evolve_all v srs).map (fun ds => d :: ds)

/-- `RateState._integrationStep` (lines 101-124).  The method ignores `self`
(it reads only `w`, `t` and `system`).  Steps, in source order: assign
`system.mu = w[0]` (`IndexError` on an empty vector); assign
`state_relations[i].state = w[i+1]` (`IndexError` when `w` is shorter than
the number of laws plus one); run `velocity_evolution`; perform the
zero-order-hold loadpoint-velocity lookup; compute `dmu_dt`; compute each
law's `evolve_state`; return the updated system (the mutation side effect)
together with `[dmu_dt, dtheta_dt_1, ...]`. -/
def _integrationStep (_rs : RateState) (w : List ℝ) (t : ℝ) (sys : ExternalSystem) :
    Except PyError (ExternalSystem × List ℝ) :=
  match w with
  | [] => .error .indexError
  | mu :: wrest =>
    if sys.state_relations.length ≤ wrest.length then
      match velocity_evolution
          { sys with
            mu := mu
            state_relations := (sys.state_relations.zip wrest).map
              (fun p => { p.1 with state := some p.2 }) } with
      | .error e => .error e
      | .ok sys2 =>
        match mask_last sys2.model_time sys2.loadpoint_velocity t with
        | none => .error .indexError
        | some lv =>
          match evolve_all sys2.v sys2.state_relations with
          | .error e => .error e
          | .ok ds => .ok (sys2, friction_evolution sys2 lv :: ds)
    else .error .indexError

/-- `np.ediff1d` as used on `system.model_time` (line 161): the list of
consecutive differences. -/
def ediff1d (xs : List ℝ) : List ℝ :=
  List.zipWith (fun a b => b - a) xs xs.tail

/-- `np.cumsum` with explicit running total (`acc` is the sum of the
elements already consumed). -/
def cumsumFrom (acc : ℝ) : List ℝ → List ℝ
  | [] => []
  | x :: xs => (acc + x) :: cumsumFrom (acc + x) xs

/-- `np.cumsum` (line 162). -/
def cumsum (xs : List ℝ) : List ℝ :=
  cumsumFrom 0 xs

/-- The column-accumulation loop of `RateState.solve` (lines 154-156),
written with the running column index `i` of `enumerate`:
`velocity_contribution += b_i * np.log(vref * states[:, i] / Dc_i)`,
a vectorized (row-pointwise) sum started from the scalar `0` broadcast over
the `states.length` rows. -/
def vContribAux (vref : ℝ) (states : List (List ℝ)) :
    ℕ → List StateRelation → List ℝ → List ℝ
  | _, [], acc => acc
  | i, law :: laws, acc =>
    vContribAux vref states (i + 1) laws
      (List.zipWith (fun x y => x + y) acc
        (states.map (fun row => law.b * Real.log (vref * row.getD i 0 / law.Dc))))

/-- The full `velocity_contribution` vector of `RateState.solve`
(lines 153-156). -/
def vContribVec (vref : ℝ) (laws : List StateRelation) (states : List (List ℝ)) : List ℝ :=
  vContribAux vref states 0 laws (List.replicate states.length 0)

/-- The post-integration processing of `RateState.solve` (lines 149-165):
given the raw solution matrix `wsol`, set `friction = wsol[:,0]`,
`states = wsol[:,1:]`, `time = system.model_time`, recompute
`slider_velocity = vref * exp((friction - mu0 - velocity_contribution)/a)`
vectorized over the grid, compute `displacement` as `np.cumsum` of
`loadpoint_velocity[:-1] * ediff1d(model_time)` with `0` inserted in front,
store the results on the simulator and return them. -/
def solvePost (rs : RateState) (sys : ExternalSystem) (wsol : List (List ℝ)) :
    RateState × Results :=
  let friction := wsol.map (fun row => row.getD 0 0)
  let states := wsol.map List.tail
  let slider := List.zipWith (fun f c => sys.vref * Real.exp ((f - sys.mu0 - c) / sys.a))
    friction (vContribVec sys.vref sys.state_relations states)
  let disp := 0 :: cumsum (List.zipWith (fun x d => x * d)
    sys.loadpoint_velocity.dropLast (ediff1d sys.model_time))
  let res : Results :=
    { time := sys.model_time
      displacement := disp
      slider_velocity := slider
      friction := friction
      states := states }
  ({ rs with results := res }, res)

/-- The initial-condition construction of `RateState.solve` (lines 141-145):
`w0 = [mu0]` followed by each state relation's freshly set steady-state
value, in list order. -/
def solveW0 (sys : ExternalSystem) : List ℝ :=
  sys.mu0 :: (sys.state_relations.map (set_steady_state sys.vref)).map
    (fun sr => sr.state.getD 0)

/-- The system as mutated by the initial-condition loop of `solve`
(line 144 runs `_set_steady_state` on every state relation in place). -/
def solveReady (sys : ExternalSystem) : ExternalSystem :=
  { sys with state_relations := sys.state_relations.map (set_steady_state sys.vref) }

/-- `RateState.solve` (lines 129-165), with the external black-box
integrator `scipy.integrate.odeint` passed in as a function argument
`odeint` (it receives the right-hand-side step function, the initial vector
and the time grid, and returns the solution matrix).  The step function
passed to the integrator is `_integrationStep` closed over the system, with
the mutation component projected away since `odeint` consumes only the
returned derivative vector.  `solve` raises `RuntimeError` when `readyCheck`
is not `True` (lines 138-139). -/
def solve
    (odeint : (List ℝ → ℝ → Except PyError (List ℝ)) → List ℝ → List ℝ → List (List ℝ))
    (rs : RateState) (sys : ExternalSystem) : Except PyError (RateState × Results) :=
  if readyCheck rs = true then
    .ok (solvePost rs (solveReady sys)
      (odeint (fun w t => (_integrationStep rs w t (solveReady sys)).map Prod.snd)
        (solveW0 sys) (solveReady sys).model_time))
  else .error .runtimeError

/-- The specification's constitutive relation for the slider velocity,
`v = vref * exp((mu - mu0 - Σ_i b_i*ln(vref*θ_i/Dc_i)) / a)`, written as a
closed-form sum over the (law, state-value) pairs; the refinement target
against which the source's accumulation loop is compared. -/
def spec_velocity (vref mu mu0 a : ℝ) (pairs : List (StateRelation × ℝ)) : ℝ :=
  vref * Real.exp ((mu - mu0 -
    (pairs.map (fun p => p.1.b * Real.log (vref * p.2 / p.1.Dc))).sum) / a)

/-- The per-variant state-evolution rate of a (law, state-value) pair at
slider velocity `v`: the success value of `evolve_state`, as a total
function, used to characterize the step function's output vector. -/
def evolve_formula (v : ℝ) (p : StateRelation × ℝ) : ℝ :=
  match p.1.kind with
  | .dieterich => 1 - v * p.2 / p.1.Dc
  | .ruina => -1 * (v * p.2 / p.1.Dc) * Real.log (v * p.2 / p.1.Dc)
  | .prz => 1 - (v * p.2 / (2 * p.1.Dc)) ^ 2

/-- A concrete configured system with no state laws, unit parameters and the
given schedule, used in concrete counterexamples and witnesses. -/
def plainSystem (timeg lv : List ℝ) : ExternalSystem :=
  { mu0 := 0, a := 1, k := 1, v := 0, vref := 1, mu := 0, state_relations := [],
    model_time := timeg, loadpoint_velocity := lv }

/-- A concrete simulator with the given schedule and no results yet, used in
concrete counterexamples and witnesses. -/
def plainRateState (timeg lv : List ℝ) : RateState :=
  { model_time := timeg, loadpoint_velocity := lv, results := emptyResults }

/-- A concrete stand-in for the black-box integrator: it returns the initial
vector at every requested grid time.  Used to instantiate `solve` in
concrete counterexamples (the facts proved there do not depend on which
integrator is plugged in). -/
def dummyOdeint : (List ℝ → ℝ → Except PyError (List ℝ)) → List ℝ → List ℝ →
    List (List ℝ) :=
  fun _step w0 times => times.map (fun _ => w0)

/-- A concrete configured system with one Dieterich-type law and unit
parameters, used in concrete witnesses. -/
def oneLawSystem : ExternalSystem :=
  { mu0 := 0, a := 1, k := 1, v := 0, vref := 1, mu := 0,
    state_relations := [⟨StateKind.dieterich, 1, 1, none⟩],
    model_time := [0], loadpoint_velocity := [1] }

/-- A concrete Dieterich-type law with distinctive parameters, used in
concrete witnesses. -/
def lawD : StateRelation := ⟨StateKind.dieterich, 1, 1, none⟩

/-- A concrete Ruina-type law with distinctive parameters, used in concrete
witnesses. -/
def lawR : StateRelation := ⟨StateKind.ruina, 2, 3, none⟩

/-- A concrete configured system with two distinct state laws, used in
concrete witnesses. -/
def twoLawSystem : ExternalSystem :=
  { mu0 := 0, a := 1, k := 1, v := 0, vref := 1, mu := 0,
    state_relations := [lawD, lawR], model_time := [0], loadpoint_velocity := [1] }

/-! ## Theorems -/

/-- Claim C3: for every system with `vref > 0` and every state law with
`Dc > 0` and initialized state, the three variants compute their
capabilities by the closed-form formulas: the steady-state value is
`Dc/vref` (Dieterich), `Dc/vref` (Ruina), `2*Dc/vref` (PRZ); the friction
contribution is `b * ln(vref*state/Dc)` for all variants; the evolve rate
is `1 - v*state/Dc` (Dieterich), `-(v*state/Dc)*ln(v*state/Dc)` (Ruina),
`1 - (v*state/(2*Dc))^2` (PRZ). -/
theorem state_law_closed_forms (vref v θ : ℝ) (sr : StateRelation)
    (_hvref : 0 < vref) (_hDc : 0 < sr.Dc) (hstate : sr.state = some θ) :
    (set_steady_state vref sr).state = some (match sr.kind with
      | .dieterich => sr.Dc / vref
      | .ruina => sr.Dc / vref
      | .prz => 2 * sr.Dc / vref) ∧
    velocity_component vref sr = .ok (sr.b * Real.log (vref * θ / sr.Dc)) ∧
    evolve_state v sr = .ok (match sr.kind with
      | .dieterich => 1 - v * θ / sr.Dc
      | .ruina => -(v * θ / sr.Dc) * Real.log (v * θ / sr.Dc)
      | .prz => 1 - (v * θ / (2 * sr.Dc)) ^ 2) := by
  refine ⟨?_, ?_, ?_⟩
  · cases h : sr.kind <;> simp [set_steady_state, steady_state_value, h]
  · simp [velocity_component, hstate]
  · cases h : sr.kind <;> simp [evolve_state, hstate, h]

/-- Witness for C3 at a concrete Dieterich-type law. -/
theorem state_law_closed_forms_witness :
    (0:ℝ) < 1 ∧ 0 < (⟨StateKind.dieterich, 1, 1, some 1⟩ : StateRelation).Dc ∧
    (⟨StateKind.dieterich, 1, 1, some 1⟩ : StateRelation).state = some 1 ∧
    ((set_steady_state 1 ⟨StateKind.dieterich, 1, 1, some 1⟩).state = some (1 / 1) ∧
     velocity_component 1 ⟨StateKind.dieterich, 1, 1, some 1⟩ =
       .ok (1 * Real.log (1 * 1 / 1)) ∧
     evolve_state 1 ⟨StateKind.dieterich, 1, 1, some 1⟩ = .ok (1 - 1 * 1 / 1)) :=
  ⟨by norm_num, by norm_num, rfl,
    state_law_closed_forms 1 1 1 ⟨StateKind.dieterich, 1, 1, some 1⟩
      (by norm_num) (by norm_num) rfl⟩

/-- Claim C5 (amended): invoking `evolve_state` on a law whose state is
uninitialized raises a `NameError` (the `None` branch calls the undefined
global `_steady_state`), and invoking the friction contribution
(`velocity_component`) on it raises a `TypeError` (`vref * None`); neither
raises an `UninitializedStateError`, and no value is silently returned. -/
theorem uninitialized_state_errors (v vref : ℝ) (sr : StateRelation)
    (h : sr.state = none) :
    evolve_state v sr = .error .nameError ∧
    velocity_component vref sr = .error .typeError := by
  constructor <;> simp [evolve_state, velocity_component, h]

/-- Witness for the amended C5 at a concrete uninitialized law. -/
theorem uninitialized_state_errors_witness :
    (⟨StateKind.dieterich, 1, 1, none⟩ : StateRelation).state = none ∧
    (evolve_state 1 ⟨StateKind.dieterich, 1, 1, none⟩ = .error .nameError ∧
     velocity_component 1 ⟨StateKind.dieterich, 1, 1, none⟩ = .error .typeError) :=
  ⟨rfl, uninitialized_state_errors 1 1 ⟨StateKind.dieterich, 1, 1, none⟩ rfl⟩

/-- Claim C5 counterexample: at a concrete uninitialized Dieterich-type law,
the errors actually raised are `NameError` and `TypeError`, not the
`UninitializedStateError` the claim names. -/
theorem uninitialized_error_counterexample :
    evolve_state 1 ⟨StateKind.dieterich, 1, 1, none⟩ = .error .nameError ∧
    velocity_component 1 ⟨StateKind.dieterich, 1, 1, none⟩ = .error .typeError ∧
    evolve_state 1 ⟨StateKind.dieterich, 1, 1, none⟩ ≠
      .error .uninitializedStateError ∧
    velocity_component 1 ⟨StateKind.dieterich, 1, 1, none⟩ ≠
      .error .uninitializedStateError := by
  refine ⟨rfl, rfl, ?_, ?_⟩ <;> simp [evolve_state, velocity_component]

/-- In a `≤`-sorted nonempty list every member is at most the last element. -/
theorem sorted_mem_le_getLast (l : List ℝ) (hne : l ≠ [])
    (hs : List.Sorted (· ≤ ·) l) : ∀ x ∈ l, x ≤ l.getLast hne := by
  induction l with
  | nil => exact absurd rfl hne
  | cons a l ih =>
    intro x hx
    rw [List.sorted_cons] at hs
    cases l with
    | nil => simp at hx; simp [hx, List.getLast]
    | cons b l' =>
      rw [List.getLast_cons (by simp)]
      rcases List.mem_cons.mp hx with h | h
      · exact h ▸ (hs.1 _ (List.getLast_mem (by simp))).trans_eq rfl
      · exact ih (by simp) hs.2 x h

/-- The last entry of a zip of equal-length lists projects to the last entry
of the second list. -/
theorem zip_getLast_map_snd (as : List ℝ) : ∀ bs : List ℝ, as.length = bs.length →
    ((as.zip bs).getLast?).map Prod.snd = bs.getLast? := by
  induction as with
  | nil =>
    intro bs h
    cases bs with
    | nil => rfl
    | cons b bs => simp at h
  | cons a as ih =>
    intro bs h
    cases bs with
    | nil => simp at h
    | cons b bs =>
      have h' : as.length = bs.length := by simpa using h
      cases as with
      | nil =>
        cases bs with
        | nil => rfl
        | cons b' bs' => simp at h'
      | cons a' as' =>
        cases bs with
        | nil => simp at h'
        | cons b' bs' =>
          rw [List.zip_cons_cons, List.zip_cons_cons, List.getLast?_cons_cons,
            List.getLast?_cons_cons, ← List.zip_cons_cons]
          exact ih (b' :: bs') h'

/-- Claim C2: for equal-length grids, if index `j` is the last index whose
grid time does not exceed `t`, the zero-order-hold lookup of
`_integrationStep` returns the velocity at index `j`: no interpolation and
no lookahead. -/
theorem mask_last_latest (time vel : List ℝ) (t : ℝ) (j : ℕ)
    (hlen : time.length = vel.length) (hj : j < time.length)
    (hle : time.getD j 0 ≤ t)
    (hafter : ∀ i, i < time.length → j < i → ¬ time.getD i 0 ≤ t) :
    mask_last time vel t = some (vel.getD j 0) := by
  induction time generalizing vel j with
  | nil => simp at hj
  | cons a as ih =>
    cases vel with
    | nil => simp at hlen
    | cons b bs =>
      have hlen' : as.length = bs.length := by simpa using hlen
      cases j with
      | zero =>
        have hemp : (as.zip bs).filter (fun p => decide (p.1 ≤ t)) = [] := by
          rw [List.filter_eq_nil_iff]
          intro p hp
          obtain ⟨x, y⟩ := p
          have h1 : x ∈ as := (List.of_mem_zip hp).1
          obtain ⟨n, hn, hgn⟩ := List.mem_iff_getElem.mp h1
          have h2 := hafter (n + 1) (by simpa using Nat.succ_lt_succ hn) (Nat.succ_pos n)
          rw [List.getD_cons_succ, List.getD_eq_getElem as 0 hn, hgn] at h2
          simpa using h2
        have ha : a ≤ t := by simpa using hle
        simp [mask_last, List.filter_cons, ha, hemp]
      | succ j' =>
        have hle' : as.getD j' 0 ≤ t := by simpa using hle
        have hafter' : ∀ i, i < as.length → j' < i → ¬ as.getD i 0 ≤ t := by
          intro i hi hj'
          have h2 := hafter (i + 1) (by simpa using Nat.succ_lt_succ hi)
            (Nat.succ_lt_succ hj')
          simpa using h2
        have hrec := ih bs j' hlen' (by simpa using hj) hle' hafter'
        have hFne : (as.zip bs).filter (fun p => decide (p.1 ≤ t)) ≠ [] := by
          intro hF
          rw [mask_last, hF] at hrec
          simp at hrec
        rw [List.getD_cons_succ]
        rw [mask_last] at hrec ⊢
        rw [List.zip_cons_cons, List.filter_cons]
        by_cases hat : a ≤ t
        · rw [if_pos (decide_eq_true hat)]
          cases hF : (as.zip bs).filter (fun p => decide (p.1 ≤ t)) with
          | nil => exact absurd hF hFne
          | cons f0 F' =>
            rw [hF] at hrec
            rw [List.getLast?_cons_cons]
            exact hrec
        · rw [if_neg (by simpa using hat)]
          exact hrec

/-- Witness for C2: the spec's concrete scenario, `time_grid=[0,1,2,3]`,
`loadpoint_velocity=[5,5,9,9]`, queried at `t=1.5`, returns `5` (the value
at `t=1`, the latest grid time not exceeding `1.5`). -/
theorem mask_last_latest_witness :
    (([0, 1, 2, 3] : List ℝ).length = ([5, 5, 9, 9] : List ℝ).length) ∧
    (1 < ([0, 1, 2, 3] : List ℝ).length) ∧
    (([0, 1, 2, 3] : List ℝ).getD 1 0 ≤ (3 / 2 : ℝ)) ∧
    (∀ i, i < ([0, 1, 2, 3] : List ℝ).length → 1 < i →
      ¬ ([0, 1, 2, 3] : List ℝ).getD i 0 ≤ (3 / 2 : ℝ)) ∧
    mask_last [0, 1, 2, 3] [5, 5, 9, 9] (3 / 2) = some 5 := by
  have hle : ([0, 1, 2, 3] : List ℝ).getD 1 0 ≤ (3 / 2 : ℝ) := by
    norm_num [List.getD_cons_succ, List.getD_cons_zero]
  have hafter : ∀ i, i < ([0, 1, 2, 3] : List ℝ).length → 1 < i →
      ¬ ([0, 1, 2, 3] : List ℝ).getD i 0 ≤ (3 / 2 : ℝ) := by
    intro i hi h1
    simp only [List.length_cons, List.length_nil] at hi
    interval_cases i <;> norm_num [List.getD_cons_succ, List.getD_cons_zero]
  exact ⟨rfl, by norm_num, hle, hafter,
    mask_last_latest [0, 1, 2, 3] [5, 5, 9, 9] (3 / 2) 1 rfl (by norm_num) hle hafter⟩

/-- Claim C10: for a sorted nonempty grid and any query time at or past the
last grid time (including times strictly beyond the end of the grid, which
the adaptive solver may request), the zero-order-hold lookup is defined and
returns the last element of the loadpoint-velocity sequence. -/
theorem mask_last_hold_past_end (time vel : List ℝ) (t : ℝ)
    (hne : time ≠ []) (hlen : time.length = vel.length)
    (hsorted : List.Sorted (· ≤ ·) time)
    (hlast : time.getLast hne ≤ t) :
    mask_last time vel t = vel.getLast? ∧ (mask_last time vel t).isSome = true := by
  have hfilter : (time.zip vel).filter (fun p => decide (p.1 ≤ t)) = time.zip vel := by
    rw [List.filter_eq_self]
    intro p hp
    obtain ⟨x, y⟩ := p
    have h1 : x ∈ time := (List.of_mem_zip hp).1
    exact decide_eq_true ((sorted_mem_le_getLast time hne hsorted x h1).trans hlast)
  have hmain : mask_last time vel t = vel.getLast? := by
    rw [mask_last, hfilter]
    exact zip_getLast_map_snd time vel hlen
  refine ⟨hmain, ?_⟩
  rw [hmain]
  rw [List.getLast?_isSome]
  apply List.ne_nil_of_length_pos
  rw [← hlen]
  exact List.length_pos.mpr hne

/-- Witness for C10 at `time_grid=[0,1]`, `loadpoint_velocity=[5,9]`,
queried at `t=2`, strictly beyond the end of the grid. -/
theorem mask_last_hold_past_end_witness :
    (([0, 1] : List ℝ) ≠ []) ∧
    (([0, 1] : List ℝ).length = ([5, 9] : List ℝ).length) ∧
    List.Sorted (· ≤ ·) ([0, 1] : List ℝ) ∧
    (([0, 1] : List ℝ).getLast (by simp) ≤ (2 : ℝ)) ∧
    (mask_last [0, 1] [5, 9] 2 = some 9 ∧
     (mask_last [0, 1] [5, 9] 2).isSome = true) := by
  have hs : List.Sorted (· ≤ ·) ([0, 1] : List ℝ) := by
    simp [List.sorted_cons]
  have hl : (([0, 1] : List ℝ).getLast (by simp) ≤ (2 : ℝ)) := by
    norm_num [List.getLast]
  exact ⟨by simp, rfl, hs, hl,
    mask_last_hold_past_end [0, 1] [5, 9] 2 (by simp) rfl hs hl⟩

/-- The accumulation loop of `velocity_evolution`, run over laws whose
states have just been assigned the paired values, succeeds and computes the
closed-form sum `Σ_i b_i * ln(vref * θ_i / Dc_i)` on top of the running
total. -/
theorem velocity_contribution_foldlM (vref : ℝ) (pairs : List (StateRelation × ℝ)) :
    ∀ acc : ℝ,
      List.foldlM (fun acc sr => (velocity_component vref sr).map (fun c => acc + c)) acc
        (pairs.map (fun p => { p.1 with state := some p.2 }))
      = .ok (acc + (pairs.map (fun p => p.1.b * Real.log (vref * p.2 / p.1.Dc))).sum) := by
  induction pairs with
  | nil =>
    intro acc
    simp only [List.map_nil, List.foldlM_nil, List.sum_nil, add_zero]
    rfl
  | cons p ps ih =>
    intro acc
    rw [List.map_cons, List.foldlM_cons]
    have hvc : velocity_component vref { p.1 with state := some p.2 }
        = .ok (p.1.b * Real.log (vref * p.2 / p.1.Dc)) := rfl
    rw [hvc]
    show List.foldlM _ (acc + p.1.b * Real.log (vref * p.2 / p.1.Dc)) _ = _
    rw [ih (acc + p.1.b * Real.log (vref * p.2 / p.1.Dc))]
    rw [List.map_cons, List.sum_cons, add_assoc]

/-- `velocity_contribution` over freshly assigned states equals the
closed-form sum. -/
theorem velocity_contribution_pairs (vref : ℝ) (pairs : List (StateRelation × ℝ)) :
    velocity_contribution vref (pairs.map (fun p => { p.1 with state := some p.2 }))
      = .ok ((pairs.map (fun p => p.1.b * Real.log (vref * p.2 / p.1.Dc))).sum) := by
  rw [velocity_contribution, velocity_contribution_foldlM, zero_add]

/-- The per-law evolution loop over freshly assigned states succeeds and
returns each law's variant formula evaluated at the given velocity, in list
order. -/
theorem evolve_all_pairs (v : ℝ) (pairs : List (StateRelation × ℝ)) :
    evolve_all v (pairs.map (fun p => { p.1 with state := some p.2 }))
      = .ok (pairs.map (evolve_formula v)) := by
  induction pairs with
  | nil => rfl
  | cons p ps ih =>
    rw [List.map_cons, evolve_all]
    have hes : evolve_state v { p.1 with state := some p.2 }
        = .ok (evolve_formula v p) := by
      cases h : p.1.kind <;> simp [evolve_state, evolve_formula, h]
    rw [hes, ih]
    rfl

/-- When some grid time does not exceed `t` and the arrays have equal
length, the zero-order-hold lookup succeeds. -/
theorem mask_last_some_of_exists (time : List ℝ) : ∀ (vel : List ℝ) (t : ℝ),
    time.length = vel.length → (∃ u ∈ time, u ≤ t) →
    ∃ lv, mask_last time vel t = some lv := by
  induction time with
  | nil =>
    intro vel t _ hex
    obtain ⟨u, hu, _⟩ := hex
    simp at hu
  | cons a as ih =>
    intro vel t hlen hex
    cases vel with
    | nil => simp at hlen
    | cons b bs =>
      rw [mask_last, List.zip_cons_cons, List.filter_cons]
      by_cases hat : a ≤ t
      · rw [if_pos (decide_eq_true hat)]
        cases hF : (as.zip bs).filter (fun p => decide (p.1 ≤ t)) with
        | nil => exact ⟨b, rfl⟩
        | cons f0 F' =>
          refine ⟨((f0 :: F').getLast (by simp)).2, ?_⟩
          rw [List.getLast?_cons_cons, List.getLast?_eq_getLast _ (by simp)]
          rfl
      · rw [if_neg (by simpa using hat)]
        obtain ⟨u, hu, hut⟩ := hex
        rcases List.mem_cons.mp hu with h | h
        · exact absurd (h ▸ hut) hat
        · exact ih bs t (by simpa using hlen) ⟨u, h, hut⟩

/-- Characterization of a successful `_integrationStep`: with a state vector
matching the number of laws and a successful loadpoint-velocity lookup, the
step assigns `mu` and the per-law states, recomputes `v` by the constitutive
relation, and returns `[k*(lv - v), rate_1, ..., rate_m]`. -/
theorem integrationStep_ok (rs : RateState) (sys : ExternalSystem) (mu t lv : ℝ)
    (θs : List ℝ) (hlen : θs.length = sys.state_relations.length)
    (hlv : mask_last sys.model_time sys.loadpoint_velocity t = some lv) :
    _integrationStep rs (mu :: θs) t sys = .ok
      ({ sys with
          mu := mu
          state_relations := (sys.state_relations.zip θs).map
            (fun p => { p.1 with state := some p.2 })
          v := spec_velocity sys.vref mu sys.mu0 sys.a (sys.state_relations.zip θs) },
        sys.k * (lv - spec_velocity sys.vref mu sys.mu0 sys.a (sys.state_relations.zip θs))
          :: (sys.state_relations.zip θs).map
            (evolve_formula (spec_velocity sys.vref mu sys.mu0 sys.a
              (sys.state_relations.zip θs)))) := by
  have hguard : sys.state_relations.length ≤ θs.length := le_of_eq hlen.symm
  have h1 : velocity_evolution
      { sys with
        mu := mu
        state_relations := (sys.state_relations.zip θs).map
          (fun p => { p.1 with state := some p.2 }) }
      = .ok { sys with
          mu := mu
          state_relations := (sys.state_relations.zip θs).map
            (fun p => { p.1 with state := some p.2 })
          v := spec_velocity sys.vref mu sys.mu0 sys.a (sys.state_relations.zip θs) } := by
    simp only [velocity_evolution]
    rw [velocity_contribution_pairs]
    rfl
  simp only [_integrationStep, if_pos hguard, h1, hlv, evolve_all_pairs,
    friction_evolution]

/-- Claim C1: for every system with `m ≥ 1` state laws, state vector
`w = [mu, θ_1, ..., θ_m]`, and time `t` with at least one grid time `≤ t`
(equal-length schedule arrays), the step function assigns `system.mu = w[0]`
and the `i`-th law's state `= w[i+1]` in list order, recomputes
`v = vref * exp((mu - mu0 - Σ_i b_i ln(vref*θ_i/Dc_i)) / a)`, and returns
`[k*(loadpoint_vel - v), dθ_1/dt, ..., dθ_m/dt]`, each rate evaluated at
the freshly updated `v`, in the same ordering as the input vector. -/
theorem integrationStep_correct (rs : RateState) (sys : ExternalSystem) (mu t : ℝ)
    (θs : List ℝ)
    (_hm : 1 ≤ sys.state_relations.length)
    (hlen : θs.length = sys.state_relations.length)
    (hgrid : sys.model_time.length = sys.loadpoint_velocity.length)
    (hex : ∃ u ∈ sys.model_time, u ≤ t) :
    ∃ lv, mask_last sys.model_time sys.loadpoint_velocity t = some lv ∧
      _integrationStep rs (mu :: θs) t sys = .ok
        ({ sys with
            mu := mu
            state_relations := (sys.state_relations.zip θs).map
              (fun p => { p.1 with state := some p.2 })
            v := spec_velocity sys.vref mu sys.mu0 sys.a (sys.state_relations.zip θs) },
          sys.k * (lv - spec_velocity sys.vref mu sys.mu0 sys.a
              (sys.state_relations.zip θs))
            :: (sys.state_relations.zip θs).map
              (evolve_formula (spec_velocity sys.vref mu sys.mu0 sys.a
                (sys.state_relations.zip θs)))) := by
  obtain ⟨lv, hlv⟩ :=
    mask_last_some_of_exists sys.model_time sys.loadpoint_velocity t hgrid hex
  exact ⟨lv, hlv, integrationStep_ok rs sys mu t lv θs hlen hlv⟩

/-- Witness for C1 at a concrete one-law system and state vector `[0, 1]`
queried at `t = 0`. -/
theorem integrationStep_correct_witness :
    1 ≤ oneLawSystem.state_relations.length ∧
    ([1] : List ℝ).length = oneLawSystem.state_relations.length ∧
    oneLawSystem.model_time.length = oneLawSystem.loadpoint_velocity.length ∧
    (∃ u ∈ oneLawSystem.model_time, u ≤ (0 : ℝ)) ∧
    (∃ lv, mask_last oneLawSystem.model_time oneLawSystem.loadpoint_velocity 0 = some lv ∧
      _integrationStep (plainRateState [0] [1]) (0 :: [1]) 0 oneLawSystem = .ok
        ({ oneLawSystem with
            mu := 0
            state_relations := (oneLawSystem.state_relations.zip [1]).map
              (fun p => { p.1 with state := some p.2 })
            v := spec_velocity oneLawSystem.vref 0 oneLawSystem.mu0 oneLawSystem.a
              (oneLawSystem.state_relations.zip [1]) },
          oneLawSystem.k * (lv - spec_velocity oneLawSystem.vref 0 oneLawSystem.mu0
              oneLawSystem.a (oneLawSystem.state_relations.zip [1]))
            :: (oneLawSystem.state_relations.zip [1]).map
              (evolve_formula (spec_velocity oneLawSystem.vref 0 oneLawSystem.mu0
                oneLawSystem.a (oneLawSystem.state_relations.zip [1]))))) := by
  have hex : ∃ u ∈ oneLawSystem.model_time, u ≤ (0 : ℝ) :=
    ⟨0, by simp [oneLawSystem], le_refl 0⟩
  exact ⟨by decide, rfl, rfl, hex,
    integrationStep_correct (plainRateState [0] [1]) oneLawSystem 0 0 [1]
      (by decide) rfl rfl hex⟩

/-- Claim C7 (amended): the time grid and loadpoint-velocity schedule used
during solving live on the FrictionSystem object, not the Simulator: the
step function ignores the simulator argument entirely (its zero-order-hold
lookup reads the system's `loadpoint_velocity`), and `solve` integrates
over — and reports as `results.time` — the system's `model_time`; the
Simulator's own `model_time`/`loadpoint_velocity` fields are never read. -/
theorem schedule_read_from_system :
    (∀ (rs rs' : RateState) (w : List ℝ) (t : ℝ) (sys : ExternalSystem),
      _integrationStep rs w t sys = _integrationStep rs' w t sys) ∧
    (∀ (odeint : (List ℝ → ℝ → Except PyError (List ℝ)) → List ℝ → List ℝ →
        List (List ℝ)) (rs : RateState) (sys : ExternalSystem),
      Except.map (fun p => p.2.time) (solve odeint rs sys)
        = Except.map (fun _ => sys.model_time) (solve odeint rs sys)) :=
  ⟨fun _ _ _ _ _ => rfl, fun _ _ _ => rfl⟩

/-- Claim C7 counterexample: replacing the simulator's own schedule leaves
the step output unchanged, while replacing the system's schedule changes
the looked-up loadpoint velocity (output `[4]` becomes `[8]`); and `solve`
on a simulator whose grid is `[0]` but a system whose grid is `[42]`
reports `results.time = [42]`. -/
theorem schedule_ownership_counterexample :
    (_integrationStep (plainRateState [0] [5]) [0] 0 (plainSystem [0] [5])
      = _integrationStep (plainRateState [0] [9]) [0] 0 (plainSystem [0] [5])) ∧
    (Except.map Prod.snd
        (_integrationStep (plainRateState [0] [5]) [0] 0 (plainSystem [0] [5]))
      = .ok [4]) ∧
    (Except.map Prod.snd
        (_integrationStep (plainRateState [0] [5]) [0] 0 (plainSystem [0] [9]))
      = .ok [8]) ∧
    ((4 : ℝ) ≠ 8) ∧
    (Except.map (fun p => p.2.time)
        (solve dummyOdeint (plainRateState [0] [5]) (plainSystem [42] [5]))
      = .ok [42]) ∧
    ((plainRateState [0] [5]).model_time = [0]) ∧
    (([42] : List ℝ) ≠ [0]) := by
  have hlv5 : mask_last [0] [5] (0 : ℝ) = some 5 := by
    simp [mask_last, List.filter]
  have hlv9 : mask_last [0] [9] (0 : ℝ) = some 9 := by
    simp [mask_last, List.filter]
  have h5 := integrationStep_ok (plainRateState [0] [5]) (plainSystem [0] [5])
    0 0 5 [] rfl hlv5
  have h9 := integrationStep_ok (plainRateState [0] [5]) (plainSystem [0] [9])
    0 0 9 [] rfl hlv9
  refine ⟨rfl, ?_, ?_, by norm_num, rfl, rfl, by simp⟩
  · rw [show ([0] : List ℝ) = 0 :: [] from rfl, h5]
    simp [plainSystem, spec_velocity, Real.exp_zero, Except.map]
    norm_num
  · rw [show ([0] : List ℝ) = 0 :: [] from rfl, h9]
    simp [plainSystem, spec_velocity, Real.exp_zero, Except.map]
    norm_num

/-- Claim C8 (amended): `solve` returns the simulator's single stored
results object — the value returned is exactly the updated simulator's
`results` field (in the source both are the one `namedtuple` object created
in `__init__`), so each solve overwrites the fields of any previously
returned Results rather than producing an independent snapshot. -/
theorem solve_returns_stored_results :
    ∀ (odeint : (List ℝ → ℝ → Except PyError (List ℝ)) → List ℝ → List ℝ →
        List (List ℝ)) (rs : RateState) (sys : ExternalSystem),
      Except.map (fun p => p.2) (solve odeint rs sys)
        = Except.map (fun p => p.1.results) (solve odeint rs sys) :=
  fun _ _ _ => rfl

/-- Claim C8 counterexample: a first solve returns a results object with
`time = [0]`; a second solve on the same simulator overwrites the stored
results object (which the first returned value aliases) with `time = [0,1]`,
so the previously returned Results does not survive unmodified. -/
theorem results_snapshot_counterexample :
    (Except.map (fun p => p.2.time)
        (solve dummyOdeint (plainRateState [0] [5]) (plainSystem [0] [5]))
      = .ok [0]) ∧
    (Except.map (fun p => Except.map (fun q => q.1.results.time)
          (solve dummyOdeint p.1 (plainSystem [0, 1] [5, 5])))
        (solve dummyOdeint (plainRateState [0] [5]) (plainSystem [0] [5]))
      = .ok (.ok [0, 1])) ∧
    (([0] : List ℝ) ≠ [0, 1]) :=
  ⟨rfl, rfl, by simp⟩

/-- Pointwise reading of a vectorized binary operation. -/
theorem getD_zipWith_lt (f : ℝ → ℝ → ℝ) (as bs : List ℝ) (j : ℕ)
    (ha : j < as.length) (hb : j < bs.length) :
    (List.zipWith f as bs).getD j 0 = f (as.getD j 0) (bs.getD j 0) := by
  have hz : j < (List.zipWith f as bs).length := by
    rw [List.length_zipWith]
    exact lt_min ha hb
  rw [List.getD_eq_getElem _ _ hz, List.getD_eq_getElem _ _ ha,
    List.getD_eq_getElem _ _ hb, List.getElem_zipWith]

/-- Pointwise reading of a mapped list (any in-range index). -/
theorem getD_map_lt {α β : Type} (f : α → β) (l : List α) (j : ℕ) (d : α) (d' : β)
    (h : j < l.length) :
    (l.map f).getD j d' = f (l.getD j d) := by
  rw [List.getD_eq_getElem _ _ (by simpa using h), List.getElem_map,
    List.getD_eq_getElem _ _ h]

/-- Reading the broadcast zero vector. -/
theorem getD_replicate_zero (n j : ℕ) : (List.replicate n (0 : ℝ)).getD j 0 = 0 := by
  rcases lt_or_ge j n with h | h
  · rw [List.getD_eq_getElem _ _ (by simpa using h), List.getElem_replicate]
  · exact List.getD_eq_default _ _ (by simpa using h)

/-- The column-accumulation loop preserves the vector length. -/
theorem vContribAux_length (vref : ℝ) (states : List (List ℝ)) :
    ∀ (laws : List StateRelation) (i : ℕ) (acc : List ℝ),
      acc.length = states.length →
      (vContribAux vref states i laws acc).length = states.length := by
  intro laws
  induction laws with
  | nil => intro i acc hacc; exact hacc
  | cons law laws ih =>
    intro i acc hacc
    rw [vContribAux]
    apply ih
    rw [List.length_zipWith, List.length_map, hacc, min_self]

/-- Row-pointwise value of the column-accumulation loop: at each row `j` it
adds, on top of the accumulator, the sum of `b * ln(vref * θ / Dc)` over the
laws paired with the row entries from column `i` on. -/
theorem vContribAux_getD (vref : ℝ) (states : List (List ℝ)) :
    ∀ (laws : List StateRelation) (i : ℕ) (acc : List ℝ),
      acc.length = states.length →
      (∀ j, j < states.length → i + laws.length ≤ (states.getD j []).length) →
      ∀ j, j < states.length →
      (vContribAux vref states i laws acc).getD j 0
        = acc.getD j 0 + ((laws.zip ((states.getD j []).drop i)).map
            (fun p => p.1.b * Real.log (vref * p.2 / p.1.Dc))).sum := by
  intro laws
  induction laws with
  | nil =>
    intro i acc _ _ j _
    simp [vContribAux]
  | cons law laws ih =>
    intro i acc hacc hrow j hj
    rw [vContribAux]
    have haccL : (List.zipWith (fun x y => x + y) acc
        (states.map (fun row => law.b * Real.log (vref * row.getD i 0 / law.Dc)))).length
        = states.length := by
      rw [List.length_zipWith, List.length_map, hacc, min_self]
    have hrow' : ∀ j, j < states.length →
        (i + 1) + laws.length ≤ (states.getD j []).length := by
      intro j hj
      have := hrow j hj
      simp only [List.length_cons] at this
      omega
    rw [ih (i + 1) _ haccL hrow' j hj]
    have hilt : i < (states.getD j []).length := by
      have := hrow j hj
      simp only [List.length_cons] at this
      omega
    rw [getD_zipWith_lt _ _ _ _ (by rw [hacc]; exact hj)
      (by rw [List.length_map]; exact hj)]
    rw [getD_map_lt _ _ _ [] _ hj]
    rw [List.drop_eq_getElem_cons hilt, List.zip_cons_cons, List.map_cons,
      List.sum_cons, ← List.getD_eq_getElem _ 0 hilt, add_assoc]

/-- Row-pointwise value of the `velocity_contribution` vector of `solve`:
it equals the row-wise closed-form sum over the (law, state) pairs. -/
theorem vContribVec_getD (vref : ℝ) (laws : List StateRelation)
    (states : List (List ℝ))
    (hrow : ∀ j, j < states.length → laws.length ≤ (states.getD j []).length) :
    ∀ j, j < states.length →
    (vContribVec vref laws states).getD j 0
      = ((laws.zip (states.getD j [])).map
          (fun p => p.1.b * Real.log (vref * p.2 / p.1.Dc))).sum := by
  intro j hj
  rw [vContribVec]
  rw [vContribAux_getD vref states laws 0 _ (List.length_replicate _ _)
    (by intro j hj; simpa using hrow j hj) j hj]
  rw [getD_replicate_zero, zero_add, List.drop_zero]

/-- `cumsumFrom` preserves length. -/
theorem cumsumFrom_length : ∀ (xs : List ℝ) (acc : ℝ),
    (cumsumFrom acc xs).length = xs.length := by
  intro xs
  induction xs with
  | nil => intro acc; rfl
  | cons x xs ih => intro acc; simp [cumsumFrom, ih]

/-- First entry of a running sum. -/
theorem cumsumFrom_getD_zero (xs : List ℝ) (acc : ℝ) (h : 0 < xs.length) :
    (cumsumFrom acc xs).getD 0 0 = acc + xs.getD 0 0 := by
  cases xs with
  | nil => simp at h
  | cons x xs => rfl

/-- Recurrence of a running sum: each entry is the previous entry plus the
new element. -/
theorem cumsumFrom_getD_succ : ∀ (xs : List ℝ) (acc : ℝ) (j : ℕ),
    j + 1 < xs.length →
    (cumsumFrom acc xs).getD (j + 1) 0
      = (cumsumFrom acc xs).getD j 0 + xs.getD (j + 1) 0 := by
  intro xs
  induction xs with
  | nil => intro acc j h; simp at h
  | cons x xs ih =>
    intro acc j h
    cases j with
    | zero =>
      rw [cumsumFrom]
      rw [List.getD_cons_succ, List.getD_cons_zero, List.getD_cons_succ]
      exact cumsumFrom_getD_zero xs (acc + x) (by simpa using h)
    | succ j' =>
      rw [cumsumFrom]
      rw [List.getD_cons_succ, List.getD_cons_succ, List.getD_cons_succ]
      exact ih (acc + x) j' (by simpa using h)

/-- Reading `dropLast` below the cut. -/
theorem getD_dropLast_lt (xs : List ℝ) (j : ℕ) (h : j < xs.length - 1) :
    xs.dropLast.getD j 0 = xs.getD j 0 := by
  have h1 : j < xs.dropLast.length := by rw [List.length_dropLast]; exact h
  have h2 : j < xs.length := by omega
  rw [List.getD_eq_getElem _ _ h1, List.getD_eq_getElem _ _ h2,
    List.getElem_dropLast]

/-- Reading the consecutive-difference vector. -/
theorem ediff1d_getD (xs : List ℝ) (j : ℕ) (h : j + 1 < xs.length) :
    (ediff1d xs).getD j 0 = xs.getD (j + 1) 0 - xs.getD j 0 := by
  rw [ediff1d]
  rw [getD_zipWith_lt _ _ _ _ (by omega) (by rw [List.length_tail]; omega)]
  congr 1
  have ht : j < xs.tail.length := by rw [List.length_tail]; omega
  rw [List.getD_eq_getElem _ _ ht, List.getElem_tail,
    List.getD_eq_getElem _ _ (by omega : j + 1 < xs.length)]

/-- Length of the `velocity_contribution` vector of `solve`. -/
theorem vContribVec_length (vref : ℝ) (laws : List StateRelation)
    (states : List (List ℝ)) :
    (vContribVec vref laws states).length = states.length := by
  rw [vContribVec]
  exact vContribAux_length vref states laws 0 _ (List.length_replicate _ _)

/-- Claim C6: after integration yields the `N × (m+1)` solution matrix
`wsol`, the post-processing of `solve` sets `friction = wsol[:,0]` and
`states = wsol[:,1:]`, recomputes
`slider_velocity[j] = vref * exp((friction[j] - mu0 - Σ_i b_i
ln(vref*states[j,i]/Dc_i)) / a)` pointwise from the solved trajectory (the
final conjunct: the whole of `solve` is invariant in the step-local scratch
`v`, which is therefore never read after integration), and sets
`displacement[0] = 0` with `displacement[j] = displacement[j-1] +
loadpoint_velocity[j-1] * (time[j] - time[j-1])` for `j ≥ 1`, using the
grid's actual (possibly non-uniform) deltas. -/
theorem solve_postprocessing_correct (rs : RateState) (sys : ExternalSystem)
    (wsol : List (List ℝ))
    (hN : 1 ≤ wsol.length)
    (htime : sys.model_time.length = wsol.length)
    (hlv : sys.loadpoint_velocity.length = wsol.length)
    (hrows : ∀ row ∈ wsol, row.length = sys.state_relations.length + 1) :
    ((solvePost rs sys wsol).2.friction = wsol.map (fun row => row.getD 0 0)) ∧
    ((solvePost rs sys wsol).2.states = wsol.map List.tail) ∧
    ((solvePost rs sys wsol).2.slider_velocity.length = wsol.length) ∧
    (∀ j, j < wsol.length →
      (solvePost rs sys wsol).2.slider_velocity.getD j 0
        = sys.vref * Real.exp ((((solvePost rs sys wsol).2.friction.getD j 0) - sys.mu0 -
            ((sys.state_relations.zip ((solvePost rs sys wsol).2.states.getD j [])).map
              (fun p => p.1.b * Real.log (sys.vref * p.2 / p.1.Dc))).sum) / sys.a)) ∧
    ((solvePost rs sys wsol).2.displacement.length = wsol.length) ∧
    ((solvePost rs sys wsol).2.displacement.getD 0 0 = 0) ∧
    (∀ j, 1 ≤ j → j < wsol.length →
      (solvePost rs sys wsol).2.displacement.getD j 0
        = (solvePost rs sys wsol).2.displacement.getD (j - 1) 0
          + sys.loadpoint_velocity.getD (j - 1) 0
            * (sys.model_time.getD j 0 - sys.model_time.getD (j - 1) 0)) ∧
    (∀ (odeint : (List ℝ → ℝ → Except PyError (List ℝ)) → List ℝ → List ℝ →
        List (List ℝ)) (x : ℝ),
      solve odeint rs { sys with v := x } = solve odeint rs sys) := by
  have hSlen : (wsol.map List.tail).length = wsol.length := List.length_map _ _
  have hFlen : (wsol.map (fun row : List ℝ => row.getD 0 0)).length = wsol.length :=
    List.length_map _ _
  have hrowS : ∀ j, j < (wsol.map List.tail).length →
      sys.state_relations.length ≤ ((wsol.map List.tail).getD j []).length := by
    intro j hj
    rw [hSlen] at hj
    rw [getD_map_lt List.tail wsol j [] [] hj, List.length_tail]
    rw [hrows (wsol.getD j []) (by
      rw [List.getD_eq_getElem _ _ hj]
      exact List.getElem_mem hj)]
    omega
  have hediffLen : (ediff1d sys.model_time).length = wsol.length - 1 := by
    rw [ediff1d, List.length_zipWith, List.length_tail, htime]
    exact Nat.min_eq_right (Nat.sub_le _ _)
  have hysLen : (List.zipWith (fun x d => x * d) sys.loadpoint_velocity.dropLast
      (ediff1d sys.model_time)).length = wsol.length - 1 := by
    rw [List.length_zipWith, List.length_dropLast, hlv, hediffLen, min_self]
  have hysGetD : ∀ i, i + 1 < wsol.length →
      (List.zipWith (fun x d => x * d) sys.loadpoint_velocity.dropLast
        (ediff1d sys.model_time)).getD i 0
      = sys.loadpoint_velocity.getD i 0
        * (sys.model_time.getD (i + 1) 0 - sys.model_time.getD i 0) := by
    intro i hi
    rw [getD_zipWith_lt _ _ _ _ (by rw [List.length_dropLast, hlv]; omega)
      (by rw [hediffLen]; omega)]
    rw [getD_dropLast_lt _ _ (by rw [hlv]; omega)]
    rw [ediff1d_getD _ _ (by rw [htime]; omega)]
  have hfr : (solvePost rs sys wsol).2.friction
      = wsol.map (fun row : List ℝ => row.getD 0 0) := rfl
  have hst : (solvePost rs sys wsol).2.states = wsol.map List.tail := rfl
  have h3 : (solvePost rs sys wsol).2.slider_velocity
      = List.zipWith (fun f c => sys.vref * Real.exp ((f - sys.mu0 - c) / sys.a))
        (wsol.map (fun row => row.getD 0 0))
        (vContribVec sys.vref sys.state_relations (wsol.map List.tail)) := rfl
  have h7d : (solvePost rs sys wsol).2.displacement
      = 0 :: cumsum (List.zipWith (fun x d => x * d)
          sys.loadpoint_velocity.dropLast (ediff1d sys.model_time)) := rfl
  refine ⟨rfl, rfl, ?_, ?_, ?_, rfl, ?_, ?_⟩
  · rw [h3, List.length_zipWith, hFlen, vContribVec_length, hSlen, min_self]
  · intro j hj
    rw [h3, hfr, hst]
    rw [getD_zipWith_lt _ _ _ j (by rw [hFlen]; exact hj)
      (by rw [vContribVec_length, hSlen]; exact hj)]
    rw [vContribVec_getD _ _ _ hrowS j (by rw [hSlen]; exact hj)]
  · rw [h7d, List.length_cons, cumsum, cumsumFrom_length, hysLen]
    omega
  · intro j h1 hjN
    obtain ⟨k, rfl⟩ : ∃ k, j = k + 1 := ⟨j - 1, by omega⟩
    rw [h7d]
    simp only [List.getD_cons_succ, Nat.add_sub_cancel]
    cases k with
    | zero =>
      rw [List.getD_cons_zero]
      rw [cumsum, cumsumFrom_getD_zero _ _ (by rw [hysLen]; omega)]
      rw [hysGetD 0 (by omega)]
    | succ k' =>
      rw [cumsum, List.getD_cons_succ]
      rw [cumsumFrom_getD_succ _ _ k' (by rw [hysLen]; omega)]
      rw [hysGetD (k' + 1) (by omega)]
  · intro od x
    rfl

/-- Witness for C6 at a concrete two-point grid with a zero-law system and
solution matrix `[[0], [0]]`. -/
theorem solve_postprocessing_correct_witness :
    1 ≤ ([[0], [0]] : List (List ℝ)).length ∧
    (plainSystem [0, 1] [1, 1]).model_time.length
      = ([[0], [0]] : List (List ℝ)).length ∧
    (plainSystem [0, 1] [1, 1]).loadpoint_velocity.length
      = ([[0], [0]] : List (List ℝ)).length ∧
    (∀ row ∈ ([[0], [0]] : List (List ℝ)),
      row.length = (plainSystem [0, 1] [1, 1]).state_relations.length + 1) ∧
    (((solvePost (plainRateState [0, 1] [1, 1]) (plainSystem [0, 1] [1, 1])
        [[0], [0]]).2.friction
      = ([[0], [0]] : List (List ℝ)).map (fun row => row.getD 0 0)) ∧
    ((solvePost (plainRateState [0, 1] [1, 1]) (plainSystem [0, 1] [1, 1])
        [[0], [0]]).2.states = ([[0], [0]] : List (List ℝ)).map List.tail) ∧
    ((solvePost (plainRateState [0, 1] [1, 1]) (plainSystem [0, 1] [1, 1])
        [[0], [0]]).2.slider_velocity.length = ([[0], [0]] : List (List ℝ)).length) ∧
    (∀ j, j < ([[0], [0]] : List (List ℝ)).length →
      (solvePost (plainRateState [0, 1] [1, 1]) (plainSystem [0, 1] [1, 1])
          [[0], [0]]).2.slider_velocity.getD j 0
        = (plainSystem [0, 1] [1, 1]).vref * Real.exp
            ((((solvePost (plainRateState [0, 1] [1, 1]) (plainSystem [0, 1] [1, 1])
                [[0], [0]]).2.friction.getD j 0) - (plainSystem [0, 1] [1, 1]).mu0 -
              (((plainSystem [0, 1] [1, 1]).state_relations.zip
                  ((solvePost (plainRateState [0, 1] [1, 1]) (plainSystem [0, 1] [1, 1])
                    [[0], [0]]).2.states.getD j [])).map
                (fun p => p.1.b * Real.log
                  ((plainSystem [0, 1] [1, 1]).vref * p.2 / p.1.Dc))).sum) /
              (plainSystem [0, 1] [1, 1]).a)) ∧
    ((solvePost (plainRateState [0, 1] [1, 1]) (plainSystem [0, 1] [1, 1])
        [[0], [0]]).2.displacement.length = ([[0], [0]] : List (List ℝ)).length) ∧
    ((solvePost (plainRateState [0, 1] [1, 1]) (plainSystem [0, 1] [1, 1])
        [[0], [0]]).2.displacement.getD 0 0 = 0) ∧
    (∀ j, 1 ≤ j → j < ([[0], [0]] : List (List ℝ)).length →
      (solvePost (plainRateState [0, 1] [1, 1]) (plainSystem [0, 1] [1, 1])
          [[0], [0]]).2.displacement.getD j 0
        = (solvePost (plainRateState [0, 1] [1, 1]) (plainSystem [0, 1] [1, 1])
            [[0], [0]]).2.displacement.getD (j - 1) 0
          + (plainSystem [0, 1] [1, 1]).loadpoint_velocity.getD (j - 1) 0
            * ((plainSystem [0, 1] [1, 1]).model_time.getD j 0
              - (plainSystem [0, 1] [1, 1]).model_time.getD (j - 1) 0)) ∧
    (∀ (odeint : (List ℝ → ℝ → Except PyError (List ℝ)) → List ℝ → List ℝ →
        List (List ℝ)) (x : ℝ),
      solve odeint (plainRateState [0, 1] [1, 1])
          { plainSystem [0, 1] [1, 1] with v := x }
        = solve odeint (plainRateState [0, 1] [1, 1]) (plainSystem [0, 1] [1, 1]))) := by
  have hrows : ∀ row ∈ ([[0], [0]] : List (List ℝ)),
      row.length = (plainSystem [0, 1] [1, 1]).state_relations.length + 1 := by
    intro row hr
    fin_cases hr <;> rfl
  exact ⟨by decide, rfl, rfl, hrows,
    solve_postprocessing_correct (plainRateState [0, 1] [1, 1])
      (plainSystem [0, 1] [1, 1]) [[0], [0]] (by decide) rfl rfl hrows⟩

/-- Claim C9: permuting the ordered list of state laws, each law keeping its
own `b`, `Dc` and state value and the state vector reordered
correspondingly, leaves every friction-determining quantity computed by the
repository unchanged: the initial vector keeps the same head `mu0` and is
correspondingly permuted; both step evaluations use the same looked-up
loadpoint velocity, recompute the same `v`, and produce the same `dmu/dt`
first component, each per-law rate travelling with its law (the output
vectors are permutations of one another); and the slider-velocity
reconstruction at corresponding rows is identical.  (The black-box
integrator, out of scope per the spec, is the only component between these
conjuncts and the final trajectories.) -/
theorem state_law_permutation_invariance
    (rs : RateState) (sys : ExternalSystem) (lawsB : List StateRelation)
    (mu t : ℝ) (θsA θsB : List ℝ)
    (hperm : (sys.state_relations.zip θsA).Perm (lawsB.zip θsB))
    (_hm : 2 ≤ sys.state_relations.length)
    (hlenA : θsA.length = sys.state_relations.length)
    (hlenB : θsB.length = lawsB.length)
    (hgrid : sys.model_time.length = sys.loadpoint_velocity.length)
    (hex : ∃ u ∈ sys.model_time, u ≤ t) :
    ((solveW0 { sys with state_relations := lawsB }).getD 0 0 = sys.mu0) ∧
    ((solveW0 sys).Perm (solveW0 { sys with state_relations := lawsB })) ∧
    (∃ lv, mask_last sys.model_time sys.loadpoint_velocity t = some lv ∧
      _integrationStep rs (mu :: θsA) t sys = .ok
        ({ sys with
            mu := mu
            state_relations := (sys.state_relations.zip θsA).map
              (fun p => { p.1 with state := some p.2 })
            v := spec_velocity sys.vref mu sys.mu0 sys.a (sys.state_relations.zip θsA) },
          sys.k * (lv - spec_velocity sys.vref mu sys.mu0 sys.a
              (sys.state_relations.zip θsA))
            :: (sys.state_relations.zip θsA).map
              (evolve_formula (spec_velocity sys.vref mu sys.mu0 sys.a
                (sys.state_relations.zip θsA)))) ∧
      _integrationStep rs (mu :: θsB) t { sys with state_relations := lawsB } = .ok
        ({ sys with
            mu := mu
            state_relations := (lawsB.zip θsB).map
              (fun p => { p.1 with state := some p.2 })
            v := spec_velocity sys.vref mu sys.mu0 sys.a (sys.state_relations.zip θsA) },
          sys.k * (lv - spec_velocity sys.vref mu sys.mu0 sys.a
              (sys.state_relations.zip θsA))
            :: (lawsB.zip θsB).map
              (evolve_formula (spec_velocity sys.vref mu sys.mu0 sys.a
                (sys.state_relations.zip θsA)))) ∧
      List.Perm
        (sys.k * (lv - spec_velocity sys.vref mu sys.mu0 sys.a
            (sys.state_relations.zip θsA))
          :: (sys.state_relations.zip θsA).map
            (evolve_formula (spec_velocity sys.vref mu sys.mu0 sys.a
              (sys.state_relations.zip θsA))))
        (sys.k * (lv - spec_velocity sys.vref mu sys.mu0 sys.a
            (sys.state_relations.zip θsA))
          :: (lawsB.zip θsB).map
            (evolve_formula (spec_velocity sys.vref mu sys.mu0 sys.a
              (sys.state_relations.zip θsA))))) ∧
    (∀ (f : ℝ) (rowA rowB : List ℝ),
      (sys.state_relations.zip rowA).Perm (lawsB.zip rowB) →
      sys.vref * Real.exp ((f - sys.mu0 - ((sys.state_relations.zip rowA).map
          (fun p => p.1.b * Real.log (sys.vref * p.2 / p.1.Dc))).sum) / sys.a)
        = sys.vref * Real.exp ((f - sys.mu0 - ((lawsB.zip rowB).map
            (fun p => p.1.b * Real.log (sys.vref * p.2 / p.1.Dc))).sum) / sys.a)) := by
  have hfstA : (sys.state_relations.zip θsA).map Prod.fst = sys.state_relations :=
    List.map_fst_zip _ _ (le_of_eq hlenA.symm)
  have hfstB : (lawsB.zip θsB).map Prod.fst = lawsB :=
    List.map_fst_zip _ _ (le_of_eq hlenB.symm)
  have hlawsperm : sys.state_relations.Perm lawsB := by
    have h := hperm.map Prod.fst
    rwa [hfstA, hfstB] at h
  have hsum : ((sys.state_relations.zip θsA).map
      (fun p => p.1.b * Real.log (sys.vref * p.2 / p.1.Dc))).sum
      = ((lawsB.zip θsB).map
        (fun p => p.1.b * Real.log (sys.vref * p.2 / p.1.Dc))).sum :=
    (hperm.map _).sum_eq
  have hv : spec_velocity sys.vref mu sys.mu0 sys.a (sys.state_relations.zip θsA)
      = spec_velocity sys.vref mu sys.mu0 sys.a (lawsB.zip θsB) := by
    rw [spec_velocity, spec_velocity, hsum]
  refine ⟨rfl, ?_, ?_, ?_⟩
  · rw [solveW0, solveW0]
    exact List.Perm.cons _
      ((hlawsperm.map (set_steady_state sys.vref)).map (fun sr => sr.state.getD 0))
  · obtain ⟨lv, hlv⟩ :=
      mask_last_some_of_exists sys.model_time sys.loadpoint_velocity t hgrid hex
    have hA := integrationStep_ok rs sys mu t lv θsA hlenA hlv
    have hB := integrationStep_ok rs { sys with state_relations := lawsB } mu t lv θsB
      hlenB hlv
    rw [show spec_velocity ({ sys with state_relations := lawsB } : ExternalSystem).vref mu
        ({ sys with state_relations := lawsB } : ExternalSystem).mu0
        ({ sys with state_relations := lawsB } : ExternalSystem).a
        (({ sys with state_relations := lawsB } : ExternalSystem).state_relations.zip θsB)
      = spec_velocity sys.vref mu sys.mu0 sys.a (lawsB.zip θsB) from rfl, ← hv] at hB
    exact ⟨lv, hlv, hA, hB, List.Perm.cons _ (hperm.map _)⟩
  · intro f rowA rowB hp
    rw [(hp.map _).sum_eq]

/-- Witness for C9: swapping the two distinct laws of a concrete two-law
system, with the state vector `[1, 2]` reordered to `[2, 1]`. -/
theorem state_law_permutation_invariance_witness :
    ((twoLawSystem.state_relations.zip ([1, 2] : List ℝ)).Perm
      (([lawR, lawD] : List StateRelation).zip ([2, 1] : List ℝ))) ∧
    (2 ≤ twoLawSystem.state_relations.length) ∧
    (([1, 2] : List ℝ).length = twoLawSystem.state_relations.length) ∧
    (([2, 1] : List ℝ).length = ([lawR, lawD] : List StateRelation).length) ∧
    (twoLawSystem.model_time.length = twoLawSystem.loadpoint_velocity.length) ∧
    (∃ u ∈ twoLawSystem.model_time, u ≤ (0 : ℝ)) ∧
    (((solveW0 { twoLawSystem with state_relations := [lawR, lawD] }).getD 0 0
        = twoLawSystem.mu0) ∧
     ((solveW0 twoLawSystem).Perm
        (solveW0 { twoLawSystem with state_relations := [lawR, lawD] })) ∧
     (∃ lv, mask_last twoLawSystem.model_time twoLawSystem.loadpoint_velocity 0
          = some lv ∧
        _integrationStep (plainRateState [0] [1]) (0 :: [1, 2]) 0 twoLawSystem = .ok
          ({ twoLawSystem with
              mu := 0
              state_relations := (twoLawSystem.state_relations.zip ([1, 2] : List ℝ)).map
                (fun p => { p.1 with state := some p.2 })
              v := spec_velocity twoLawSystem.vref 0 twoLawSystem.mu0 twoLawSystem.a
                (twoLawSystem.state_relations.zip ([1, 2] : List ℝ)) },
            twoLawSystem.k * (lv - spec_velocity twoLawSystem.vref 0 twoLawSystem.mu0
                twoLawSystem.a (twoLawSystem.state_relations.zip ([1, 2] : List ℝ)))
              :: (twoLawSystem.state_relations.zip ([1, 2] : List ℝ)).map
                (evolve_formula (spec_velocity twoLawSystem.vref 0 twoLawSystem.mu0
                  twoLawSystem.a (twoLawSystem.state_relations.zip ([1, 2] : List ℝ))))) ∧
        _integrationStep (plainRateState [0] [1]) (0 :: [2, 1]) 0
            { twoLawSystem with state_relations := [lawR, lawD] } = .ok
          ({ twoLawSystem with
              mu := 0
              state_relations := (([lawR, lawD] : List StateRelation).zip
                  ([2, 1] : List ℝ)).map (fun p => { p.1 with state := some p.2 })
              v := spec_velocity twoLawSystem.vref 0 twoLawSystem.mu0 twoLawSystem.a
                (twoLawSystem.state_relations.zip ([1, 2] : List ℝ)) },
            twoLawSystem.k * (lv - spec_velocity twoLawSystem.vref 0 twoLawSystem.mu0
                twoLawSystem.a (twoLawSystem.state_relations.zip ([1, 2] : List ℝ)))
              :: (([lawR, lawD] : List StateRelation).zip ([2, 1] : List ℝ)).map
                (evolve_formula (spec_velocity twoLawSystem.vref 0 twoLawSystem.mu0
                  twoLawSystem.a (twoLawSystem.state_relations.zip ([1, 2] : List ℝ))))) ∧
        List.Perm
          (twoLawSystem.k * (lv - spec_velocity twoLawSystem.vref 0 twoLawSystem.mu0
              twoLawSystem.a (twoLawSystem.state_relations.zip ([1, 2] : List ℝ)))
            :: (twoLawSystem.state_relations.zip ([1, 2] : List ℝ)).map
              (evolve_formula (spec_velocity twoLawSystem.vref 0 twoLawSystem.mu0
                twoLawSystem.a (twoLawSystem.state_relations.zip ([1, 2] : List ℝ)))))
          (twoLawSystem.k * (lv - spec_velocity twoLawSystem.vref 0 twoLawSystem.mu0
              twoLawSystem.a (twoLawSystem.state_relations.zip ([1, 2] : List ℝ)))
            :: (([lawR, lawD] : List StateRelation).zip ([2, 1] : List ℝ)).map
              (evolve_formula (spec_velocity twoLawSystem.vref 0 twoLawSystem.mu0
                twoLawSystem.a (twoLawSystem.state_relations.zip ([1, 2] : List ℝ)))))) ∧
     (∀ (f : ℝ) (rowA rowB : List ℝ),
        (twoLawSystem.state_relations.zip rowA).Perm
          (([lawR, lawD] : List StateRelation).zip rowB) →
        twoLawSystem.vref * Real.exp ((f - twoLawSystem.mu0 -
            ((twoLawSystem.state_relations.zip rowA).map
              (fun p => p.1.b * Real.log (twoLawSystem.vref * p.2 / p.1.Dc))).sum) /
            twoLawSystem.a)
          = twoLawSystem.vref * Real.exp ((f - twoLawSystem.mu0 -
              ((([lawR, lawD] : List StateRelation).zip rowB).map
                (fun p => p.1.b * Real.log (twoLawSystem.vref * p.2 / p.1.Dc))).sum) /
              twoLawSystem.a))) := by
  have hperm : (twoLawSystem.state_relations.zip ([1, 2] : List ℝ)).Perm
      (([lawR, lawD] : List StateRelation).zip ([2, 1] : List ℝ)) :=
    List.Perm.swap (lawR, 2) (lawD, 1) []
  have hex : ∃ u ∈ twoLawSystem.model_time, u ≤ (0 : ℝ) :=
    ⟨0, by simp [twoLawSystem], le_refl 0⟩
  exact ⟨hperm, by decide, rfl, rfl, rfl, hex,
    state_law_permutation_invariance (plainRateState [0] [1]) twoLawSystem
      [lawR, lawD] 0 0 [1, 2] [2, 1] hperm (by decide) rfl rfl rfl hex⟩

/-- Claim C4 (code divergence): `readyCheck` is the constant `True`, so
`solve` never raises for missing parameters or mismatched array lengths —
it always proceeds to integration and returns a result, for every simulator
and system, contradicting the specified `ConfigurationError` readiness
check. -/
theorem solve_never_raises_configuration_error :
    (∀ rs : RateState, readyCheck rs = true) ∧
    ∀ (odeint : (List ℝ → ℝ → Except PyError (List ℝ)) → List ℝ → List ℝ → List (List ℝ))
      (rs : RateState) (sys : ExternalSystem),
      ∃ p, solve odeint rs sys = Except.ok p :=
  ⟨fun _ => rfl, fun _ _ _ => ⟨_, rfl⟩⟩

end

end Rsf
